import Mathlib

/-!
Verification of the `elastic-utils` repository core: the PIT/`search_after`
paginated scanner (`elasticutils/elastic_client.py`, `search_with_pit`) and the
`ElasticQueryBuilder` query construction state machine
(`elasticutils/query_builder.py`).

Conventions of the embedding:
* Machine-level JSON values carried by queries are opaque payloads; they are
  modelled by the small type `Val` (strings, integers, booleans).
* Python's `QueryBuilderException(message)` is modelled by `QBError`, whose
  constructors classify the distinct message families of the source; a Python
  `KeyError` (reachable through `build()`'s pop of the `"query"` key) is the
  `keyError` constructor.
* Stateful methods become pure functions `Builder → Except (QBError × Builder) Builder`;
  the `Builder` carried inside `.error` is the state of the object after the
  exception was raised (Python objects survive their exceptions).
* The scanner's sort-key tuples (`hit["sort"]`) form a total order; they are
  modelled by `Nat`, ordered by serving position.
-/

/-- A hit returned by the engine: a source document (identified by a `Nat`
payload) together with its sort key. `hit["_source"]` / `hit["sort"]` in the
source. -/
structure Hit where
  source : Nat
  sortKey : Nat
deriving DecidableEq

/-- Modelled from the spec: the simulated search engine used by the scan
properties ("for a simulated engine returning N total matching documents
across pages of size B").  The engine holds its matching documents in serving
order (sort keys strictly increasing along the list); a page request carrying
a `search_after` cursor returns the documents whose sort key comes strictly
after the cursor, truncated to the requested `size`. -/
def servePage (engine : List Hit) (searchAfter : Option Nat) (size : Nat) : List Hit :=
  match searchAfter with
  | none => engine.take size
  | some c => (engine.filter (fun h => c < h.sortKey)).take size

/-- The engine serves documents in the order of its list: sort keys are
strictly increasing along it. -/
def EngineSorted (engine : List Hit) : Prop :=
  engine.Pairwise (fun a b => a.sortKey < b.sortKey)

/-- Termination reason of a scan: `exhausted` when a page came back empty
(the `break` in the source), `capped` when `total_fetched` reached
`max_records` (the `while` guard failed). -/
inductive ScanStatus where
  | exhausted
  | capped
deriving DecidableEq

/-- Trace of one iteration of the scan loop: the page request it built
(`search_after` sent and `size` sent), the hits the engine returned and the
`(source, sort-key)` pairs the iteration yielded. -/
structure PageTrace where
  searchAfter : Option Nat
  size : Nat
  hits : List Hit
  emitted : List (Nat × Nat)
deriving DecidableEq

/-- The generator loop of `search_with_pit` (elastic_client.py lines 245-283),
one constructor case per iteration.  Per iteration it requests a page of
`size = min(batch_size, max_records - total_fetched)`, stops (`exhausted`) on
an empty hit list, otherwise yields `(hit["_source"], hits[-1]["sort"])` for
every hit, adds `len(hits)` to `total_fetched` and advances `search_after` to
`hits[-1]["sort"]`.  The extra `fuel` argument only bounds the number of
iterations so the recursion is structural; every nonterminal iteration
increases `total_fetched` by at least one, so `max_records + 1` units of fuel
are always sufficient (the `fuel = 0` case is unreachable from `scanPages`,
which is proved by the lemmas below taking `maxRecords - total < fuel`). -/
def scanGo (engine : List Hit) (batchSize maxRecords : Nat) :
    Nat → Nat → Option Nat → List PageTrace × ScanStatus
  | 0, _, _ => ([], ScanStatus.capped)
  | fuel + 1, total, searchAfter =>
    if total < maxRecords then
      let sz := min batchSize (maxRecords - total)
      match servePage engine searchAfter sz with
      | [] => ([⟨searchAfter, sz, [], []⟩], ScanStatus.exhausted)
      | h0 :: rest =>
        let lastKey := ((h0 :: rest).getLast (List.cons_ne_nil h0 rest)).sortKey
        let next :=
          scanGo engine batchSize maxRecords fuel (total + (h0 :: rest).length) (some lastKey)
        (⟨searchAfter, sz, h0 :: rest,
            (h0 :: rest).map (fun x => (x.source, lastKey))⟩ :: next.1,
          next.2)
    else ([], ScanStatus.capped)

/-- The page-by-page trace of a full scan started at `initial_search_after = c0`
with `total_fetched = 0`. -/
def scanPages (engine : List Hit) (batchSize maxRecords : Nat) (c0 : Option Nat) :
    List PageTrace :=
  (scanGo engine batchSize maxRecords (maxRecords + 1) 0 c0).1

/-- Concatenation of the records yielded page by page. -/
def pagesRecords : List PageTrace → List (Nat × Nat)
  | [] => []
  | pg :: rest => pg.emitted ++ pagesRecords rest

/-- The `(source, sort-key)` pairs yielded by the generator of
`search_with_pit`, in order. -/
def scanRecords (engine : List Hit) (batchSize maxRecords : Nat) (c0 : Option Nat) :
    List (Nat × Nat) :=
  pagesRecords (scanPages engine batchSize maxRecords c0)

/-- The eager (non-generator) form of `search_with_pit` (lines 288-293): it
drains the generator into `results` (the source documents) and tracks
`last_search_after`, the second component of the last yielded pair, falling
back to `initial_search_after` when nothing was yielded. -/
def search_with_pit (engine : List Hit) (batchSize maxRecords : Nat) (c0 : Option Nat) :
    List Nat × Option Nat :=
  let recs := scanRecords engine batchSize maxRecords c0
  (recs.map Prod.fst,
    match recs.getLast? with
    | some r => some r.2
    | none => c0)

/-- Page requests are well-sized: starting from `t` records already emitted,
each request in the trace carries `size = min batchSize (maxRecords - emitted so far)`,
where "emitted so far" accumulates the records yielded by the earlier pages. -/
def reqSizesOk (batchSize maxRecords : Nat) : Nat → List PageTrace → Prop
  | _, [] => True
  | t, pg :: rest =>
      pg.size = min batchSize (maxRecords - t) ∧
        reqSizesOk batchSize maxRecords (t + pg.emitted.length) rest

/-- Per-page emission discipline of the trace, relative to the cursor `c` in
force before the first listed page: the page's request carries `c` as its
`search_after`; the page yields exactly its hits' source documents in order;
every yielded pair carries the sort key of the page's last hit; and the next
page sees the cursor advanced to that last hit's sort key. -/
def ChainedFrom : Option Nat → List PageTrace → Prop
  | _, [] => True
  | c, pg :: rest =>
      pg.searchAfter = c ∧
        pg.emitted.map Prod.fst = pg.hits.map Hit.source ∧
        (∀ r ∈ pg.emitted, ∀ h, pg.hits.getLast? = some h → r.2 = h.sortKey) ∧
        ChainedFrom
          (match pg.hits.getLast? with
           | some h => some h.sortKey
           | none => c) rest

/-- The cursor `c` points just after position `p` of the engine: either no
cursor and `p = 0`, or `c` is the sort key of the document at index `p - 1`. -/
def CursorAt (engine : List Hit) (c : Option Nat) (p : Nat) : Prop :=
  (c = none ∧ p = 0) ∨
    ∃ i h, p = i + 1 ∧ engine[i]? = some h ∧ c = some h.sortKey

/-- On a sorted engine, serving a page from the cursor that points just after
position `p` returns exactly the next `size` documents of the engine. -/
theorem servePage_eq_drop_take (engine : List Hit) (hs : EngineSorted engine)
    {c : Option Nat} {p : Nat} (hc : CursorAt engine c p) (s : Nat) :
    servePage engine c s = (engine.drop p).take s := by
  rcases hc with ⟨rfl, rfl⟩ | ⟨i, h, rfl, hi, rfl⟩
  · simp [servePage]
  · obtain ⟨hilt, hieq⟩ := List.getElem?_eq_some.mp hi
    show (engine.filter _).take s = _
    congr 1
    conv_lhs => rw [← List.take_append_drop (i + 1) engine]
    rw [List.filter_append]
    have h1 : (engine.take (i + 1)).filter (fun x => decide (h.sortKey < x.sortKey)) = [] := by
      refine List.filter_eq_nil_iff.mpr ?_
      intro a ha
      obtain ⟨j, hj, rfl⟩ := List.mem_iff_getElem.mp ha
      have hj' : j < i + 1 := by
        have := hj
        rw [List.length_take] at this
        omega
      rw [List.getElem_take]
      simp only [decide_eq_true_eq, not_lt]
      rcases Nat.lt_succ_iff_lt_or_eq.mp hj' with hlt | rfl
      · have := List.pairwise_iff_getElem.mp hs j i (by omega) hilt hlt
        rw [hieq] at this
        exact Nat.le_of_lt this
      · rw [hieq]
    have h2 : (engine.drop (i + 1)).filter (fun x => decide (h.sortKey < x.sortKey))
        = engine.drop (i + 1) := by
      refine List.filter_eq_self.mpr ?_
      intro a ha
      obtain ⟨j, hj, rfl⟩ := List.mem_iff_getElem.mp ha
      rw [List.getElem_drop]
      simp only [decide_eq_true_eq]
      have hlen : i + 1 + j < engine.length := by
        have := hj
        rw [List.length_drop] at this
        omega
      have := List.pairwise_iff_getElem.mp hs i (i + 1 + j) hilt hlen (by omega)
      rw [hieq] at this
      exact this
    rw [h1, h2, List.nil_append]

/-- Unfolding of a scan iteration whose page came back empty. -/
theorem scanGo_eq_exhausted (engine : List Hit) (B M fuel total : Nat) (c : Option Nat)
    (htot : total < M) (hhits : servePage engine c (min B (M - total)) = []) :
    scanGo engine B M (fuel + 1) total c
      = ([⟨c, min B (M - total), [], []⟩], ScanStatus.exhausted) := by
  simp [scanGo, htot, hhits]

/-- Unfolding of a scan iteration whose page came back nonempty. -/
theorem scanGo_eq_cons (engine : List Hit) (B M fuel total : Nat) (c : Option Nat)
    (h0 : Hit) (rest : List Hit)
    (htot : total < M) (hhits : servePage engine c (min B (M - total)) = h0 :: rest) :
    scanGo engine B M (fuel + 1) total c
      = (⟨c, min B (M - total), h0 :: rest,
            (h0 :: rest).map
              (fun x => (x.source, ((h0 :: rest).getLast (List.cons_ne_nil h0 rest)).sortKey))⟩
          :: (scanGo engine B M fuel (total + (h0 :: rest).length)
              (some (((h0 :: rest).getLast (List.cons_ne_nil h0 rest)).sortKey))).1,
         (scanGo engine B M fuel (total + (h0 :: rest).length)
              (some (((h0 :: rest).getLast (List.cons_ne_nil h0 rest)).sortKey))).2) := by
  simp [scanGo, htot, hhits]

/-- Unfolding of a scan iteration at which the cap has been reached. -/
theorem scanGo_eq_capped (engine : List Hit) (B M fuel total : Nat) (c : Option Nat)
    (htot : ¬ total < M) :
    scanGo engine B M (fuel + 1) total c = ([], ScanStatus.capped) := by
  simp [scanGo, htot]

/-- Main invariant of the scan loop over a sorted engine.  From a state where
`total` records are already counted and the cursor points just after position
`p`, the loop emits exactly the next `min (engine.length - p) (maxRecords - total)`
documents of the engine, in order and with no gaps, and the last emitted pair
is the source and sort key of the last document served. -/
theorem scanGo_spec (engine : List Hit) (B M : Nat)
    (hs : EngineSorted engine) (hB : 0 < B) :
    ∀ fuel total c p, M - total < fuel → p ≤ engine.length → CursorAt engine c p →
      (pagesRecords (scanGo engine B M fuel total c).1).map Prod.fst
          = ((engine.drop p).map Hit.source).take (M - total)
        ∧ (pagesRecords (scanGo engine B M fuel total c).1).length
          = min (engine.length - p) (M - total)
        ∧ ∀ r, (pagesRecords (scanGo engine B M fuel total c).1).getLast? = some r →
            engine[p + (pagesRecords (scanGo engine B M fuel total c).1).length - 1]?
              = some ⟨r.1, r.2⟩ := by
  intro fuel
  induction fuel with
  | zero => intro total c p hf _ _; omega
  | succ fuel ih =>
    intro total c p hf hp hc
    by_cases htot : total < M
    · have hserve := servePage_eq_drop_take engine hs hc (min B (M - total))
      rcases hhits : servePage engine c (min B (M - total)) with _ | ⟨h0, rest⟩
      · -- empty page: the engine is exhausted at position p
        have hnil : (engine.drop p).take (min B (M - total)) = [] := by
          rw [← hserve, hhits]
        have hdrop : engine.drop p = [] := by
          rcases List.take_eq_nil_iff.mp hnil with h | h
          · omega
          · exact h
        have hNp : engine.length ≤ p := List.drop_eq_nil_iff.mp hdrop
        rw [scanGo_eq_exhausted engine B M fuel total c htot hhits]
        refine ⟨?_, ?_, ?_⟩
        · simp [pagesRecords, hdrop]
        · simp [pagesRecords]; omega
        · intro r hr; simp [pagesRecords] at hr
      · -- nonempty page
        have hpage : (engine.drop p).take (min B (M - total)) = h0 :: rest := by
          rw [← hserve, hhits]
        rw [scanGo_eq_cons engine B M fuel total c h0 rest htot hhits]
        set k := (h0 :: rest).length with hk
        set lastHit := (h0 :: rest).getLast (List.cons_ne_nil h0 rest) with hlastHit
        have hklen : k = min (min B (M - total)) (engine.length - p) := by
          rw [hk, ← hpage, List.length_take, List.length_drop]
        have hk1 : 1 ≤ k := by rw [hk, List.length_cons]; omega
        -- the last hit of the page is the engine's document at index p + k - 1
        have hlast : engine[p + k - 1]? = some lastHit := by
          have e2 : (h0 :: rest).getLast? = some lastHit := List.getLast?_eq_getLast _ _
          have e1 := List.getLast?_eq_getElem? (h0 :: rest)
          rw [e2, ← hk] at e1
          have e3 : (h0 :: rest)[k - 1]? = (engine.drop p)[k - 1]? := by
            conv_lhs => rw [← hpage]
            rw [List.getElem?_take]
            have hlt : k - 1 < min B (M - total) := by omega
            simp [hlt]
          rw [e3, List.getElem?_drop] at e1
          have e4 : p + (k - 1) = p + k - 1 := by omega
          rw [e4] at e1
          exact e1.symm
        obtain ⟨ih1, ih2, ih3⟩ :=
          ih (total + k) (some lastHit.sortKey) (p + k)
            (by omega) (by omega)
            (Or.inr ⟨p + k - 1, lastHit, by omega, hlast, rfl⟩)
        set recsNext :=
          pagesRecords (scanGo engine B M fuel (total + k) (some lastHit.sortKey)).1
          with hrecsNext
        have hM' : M - (total + k) = M - total - k := by omega
        refine ⟨?_, ?_, ?_⟩
        · -- the emitted sources form the ordered prefix of the remaining documents
          simp only [pagesRecords, List.map_append]
          rw [← hrecsNext]
          have hemit : ((h0 :: rest).map (fun x => (x.source, lastHit.sortKey))).map Prod.fst
              = ((engine.drop p).map Hit.source).take (min B (M - total)) := by
            rw [List.map_map]
            have hcomp : (Prod.fst ∘ fun x => (x.source, lastHit.sortKey)) = Hit.source := rfl
            rw [hcomp, ← List.map_take, hpage]
          rw [hemit, ih1, hM']
          have hdropk : List.map Hit.source (List.drop (p + k) engine)
              = List.drop k (List.map Hit.source (List.drop p engine)) := by
            rw [← List.drop_drop, List.map_drop]
          rw [hdropk]
          have e4 : ((engine.drop p).map Hit.source).take (min B (M - total))
              = ((engine.drop p).map Hit.source).take k := by
            rw [List.take_eq_take, List.length_map, List.length_drop]
            omega
          rw [e4, ← List.take_add]
          congr 1
          omega
        · simp only [pagesRecords, List.length_append, List.length_map]
          rw [← hrecsNext, ih2, ← hk]
          omega
        · intro r hr
          simp only [pagesRecords] at hr ⊢
          rw [← hrecsNext] at hr ⊢
          rcases hnext : recsNext with _ | ⟨r0, rs⟩
          · rw [hnext, List.append_nil] at hr
            rw [List.getLast?_map, List.getLast?_eq_getLast _ (List.cons_ne_nil h0 rest),
              ← hlastHit] at hr
            have hr' : (lastHit.source, lastHit.sortKey) = r := by simpa using hr
            rw [List.append_nil, List.length_map, ← hk, ← hr']
            exact hlast
          · rw [hnext, List.getLast?_append_of_ne_nil _ (List.cons_ne_nil r0 rs)] at hr
            have hlast2 := ih3 r (by rw [hnext]; exact hr)
            rw [hnext] at hlast2
            rw [List.length_append, List.length_map, ← hk]
            have e5 : p + (k + (r0 :: rs).length) - 1 = p + k + (r0 :: rs).length - 1 := by
              omega
            rw [e5]
            exact hlast2
    · rw [scanGo_eq_capped engine B M fuel total c htot]
      refine ⟨?_, ?_, ?_⟩
      · simp [pagesRecords]; omega
      · simp [pagesRecords]; omega
      · intro r hr; simp [pagesRecords] at hr

/-- Every page request of the scan loop is sized `min batchSize (maxRecords - emitted so far)`:
this holds for every engine, unconditionally. -/
theorem scanGo_reqSizes (engine : List Hit) (B M : Nat) :
    ∀ fuel total c, reqSizesOk B M total (scanGo engine B M fuel total c).1 := by
  intro fuel
  induction fuel with
  | zero => intro total c; simp [scanGo, reqSizesOk]
  | succ fuel ih =>
    intro total c
    by_cases htot : total < M
    · rcases hhits : servePage engine c (min B (M - total)) with _ | ⟨h0, rest⟩
      · rw [scanGo_eq_exhausted engine B M fuel total c htot hhits]
        exact ⟨rfl, trivial⟩
      · rw [scanGo_eq_cons engine B M fuel total c h0 rest htot hhits]
        refine ⟨rfl, ?_⟩
        simp only [List.length_map]
        exact ih (total + (h0 :: rest).length) _
    · rw [scanGo_eq_capped engine B M fuel total c htot]
      trivial

/-- As long as the cap has not been reached, the loop issues at least one more
page request. -/
theorem scanGo_ne_nil (engine : List Hit) (B M fuel total : Nat) (c : Option Nat)
    (hf : M - total < fuel) (htot : total < M) :
    (scanGo engine B M fuel total c).1 ≠ [] := by
  cases fuel with
  | zero => omega
  | succ fuel =>
    rcases hhits : servePage engine c (min B (M - total)) with _ | ⟨h0, rest⟩
    · rw [scanGo_eq_exhausted engine B M fuel total c htot hhits]
      exact List.cons_ne_nil _ _
    · rw [scanGo_eq_cons engine B M fuel total c h0 rest htot hhits]
      exact List.cons_ne_nil _ _

/-- The trace of the scan loop is chained: requests carry the running cursor,
each nonempty page yields its hits' sources paired with the page's last hit's
sort key, and the cursor advances to that key. -/
theorem scanGo_chained (engine : List Hit) (B M : Nat) :
    ∀ fuel total c, ChainedFrom c (scanGo engine B M fuel total c).1 := by
  intro fuel
  induction fuel with
  | zero => intro total c; simp [scanGo, ChainedFrom]
  | succ fuel ih =>
    intro total c
    by_cases htot : total < M
    · rcases hhits : servePage engine c (min B (M - total)) with _ | ⟨h0, rest⟩
      · rw [scanGo_eq_exhausted engine B M fuel total c htot hhits]
        exact ⟨rfl, rfl, by intro r hr; simp at hr, trivial⟩
      · rw [scanGo_eq_cons engine B M fuel total c h0 rest htot hhits]
        refine ⟨rfl, ?_, ?_, ?_⟩
        · rw [List.map_map]; rfl
        · intro r hr h hh
          obtain ⟨x, _, rfl⟩ := List.mem_map.mp hr
          rw [List.getLast?_eq_getLast _ (List.cons_ne_nil h0 rest)] at hh
          have : h = (h0 :: rest).getLast (List.cons_ne_nil h0 rest) := by
            exact (Option.some_inj.mp hh).symm
          rw [this]
        · rw [List.getLast?_eq_getLast _ (List.cons_ne_nil h0 rest)]
          exact ih (total + (h0 :: rest).length) _
    · rw [scanGo_eq_capped engine B M fuel total c htot]
      trivial

/-- Concrete three-document engine used by the scan witnesses. -/
def engineW : List Hit := [⟨20, 1⟩, ⟨21, 2⟩, ⟨22, 3⟩]

/-- Concrete two-document engine with distinct sort keys, used by the C2
counterexample. -/
def engine2 : List Hit := [⟨0, 10⟩, ⟨1, 20⟩]

/-- C1: over a simulated engine holding `engine.length` matching documents, a
scan with batch size `B` and cap `M` emits exactly `min engine.length M`
records — the first `min engine.length M` documents, in order, no duplicates
and no gaps — and every page request it builds carries
`size = min B (M - records emitted so far)`. -/
theorem scan_emits_min_and_sized_requests (engine : List Hit) (B M : Nat)
    (hs : EngineSorted engine) (hB : 0 < B) :
    (scanRecords engine B M none).length = min engine.length M
    ∧ (scanRecords engine B M none).map Prod.fst
        = (engine.map Hit.source).take (min engine.length M)
    ∧ reqSizesOk B M 0 (scanPages engine B M none) := by
  obtain ⟨h1, h2, _⟩ :=
    scanGo_spec engine B M hs hB (M + 1) 0 none 0 (by omega) (by omega) (Or.inl ⟨rfl, rfl⟩)
  refine ⟨?_, ?_, ?_⟩
  · rw [scanRecords, scanPages, h2]
    omega
  · rw [scanRecords, scanPages, h1, List.drop_zero]
    rw [List.take_eq_take, List.length_map]
    omega
  · exact scanGo_reqSizes engine B M (M + 1) 0 none

/-- C1 witness: the scan properties instantiated on a concrete three-document
engine with batch size 2 and cap 2. -/
theorem scan_emits_min_and_sized_requests_witness :
    EngineSorted engineW ∧ 0 < 2
    ∧ ((scanRecords engineW 2 2 none).length = min engineW.length 2
      ∧ (scanRecords engineW 2 2 none).map Prod.fst
          = (engineW.map Hit.source).take (min engineW.length 2)
      ∧ reqSizesOk 2 2 0 (scanPages engineW 2 2 none)) :=
  ⟨by unfold EngineSorted; decide, by decide,
    scan_emits_min_and_sized_requests engineW 2 2 (by unfold EngineSorted; decide) (by decide)⟩

/-- C2 counterexample: on an engine of two hits with distinct sort keys, one
batch of two hits is emitted, yet both emitted records carry the same
sort-key component (the last hit's key, `hits[-1]["sort"]`), refuting the
claim that each record carries its own hit's sort key and that records of a
batch with distinct keys carry distinct sort-key components. -/
theorem scan_pairs_not_own_key_counterexample :
    scanRecords engine2 2 5 none = [(0, 20), (1, 20)]
    ∧ (engine2.map Hit.sortKey).Nodup
    ∧ ¬ ((scanRecords engine2 2 5 none).map Prod.snd).Nodup := by
  refine ⟨by decide, by decide, by decide⟩

/-- C2 amended: for every scan step whose returned hit list is nonempty, each
hit's source document is emitted, in order, paired with the sort key of the
LAST hit of that batch (so all records of one batch share that key), and the
resume cursor of the following request is advanced to that same last hit's
sort key. -/
theorem scan_pairs_batch_last_key (engine : List Hit) (B M : Nat) (c0 : Option Nat) :
    ChainedFrom c0 (scanPages engine B M c0) :=
  scanGo_chained engine B M (M + 1) 0 c0

/-- C3: cursor-split concatenation.  Scanning with cap `K`, resuming a second
scan from the returned cursor with cap `M2`, concatenates to exactly the
single uncut scan with cap `K + M2` over the same engine. -/
theorem search_with_pit_cursor_split (engine : List Hit) (B K M2 : Nat)
    (hs : EngineSorted engine) (hB : 0 < B) :
    (search_with_pit engine B K none).1
        ++ (search_with_pit engine B M2 ((search_with_pit engine B K none).2)).1
      = (search_with_pit engine B (K + M2) none).1 := by
  obtain ⟨h1map, h1len, h1last⟩ :=
    scanGo_spec engine B K hs hB (K + 1) 0 none 0 (by omega) (by omega) (Or.inl ⟨rfl, rfl⟩)
  obtain ⟨h3map, _, _⟩ :=
    scanGo_spec engine B (K + M2) hs hB (K + M2 + 1) 0 none 0 (by omega) (by omega)
      (Or.inl ⟨rfl, rfl⟩)
  simp only [search_with_pit, scanRecords, scanPages] at *
  simp only [List.drop_zero, Nat.sub_zero] at h1map h1len h1last h3map
  set recs1 := pagesRecords (scanGo engine B K (K + 1) 0 none).1 with hrecs1
  rcases hcur : recs1.getLast? with _ | r
  · have hnil : recs1 = [] := List.getLast?_eq_none_iff.mp hcur
    have hmin0 : min engine.length K = 0 := by rw [← h1len, hnil]; rfl
    obtain ⟨h2map, _, _⟩ :=
      scanGo_spec engine B M2 hs hB (M2 + 1) 0 none 0 (by omega) (by omega)
        (Or.inl ⟨rfl, rfl⟩)
    simp only [List.drop_zero, Nat.sub_zero] at h2map
    rw [hnil]
    simp only [List.map_nil, List.nil_append]
    rw [h2map, h3map, List.take_eq_take, List.length_map]
    omega
  · have hne : recs1 ≠ [] := by
      intro h
      rw [h] at hcur
      exact Option.noConfusion hcur
    have hpos : 1 ≤ recs1.length := List.length_pos.mpr hne
    have hlen1 : recs1.length = min engine.length K := h1len
    have hidx := h1last r hcur
    obtain ⟨h2map, _, _⟩ :=
      scanGo_spec engine B M2 hs hB (M2 + 1) 0 (some r.2) recs1.length (by omega) (by omega)
        (Or.inr ⟨recs1.length - 1, ⟨r.1, r.2⟩, by omega, by
          have e : 0 + recs1.length - 1 = recs1.length - 1 := by omega
          rw [e] at hidx
          exact hidx, rfl⟩)
    simp only [Nat.sub_zero] at h2map
    rw [h1map, h2map, List.map_drop]
    rw [show List.take K (List.map Hit.source engine)
          = List.take recs1.length (List.map Hit.source engine) by
        rw [List.take_eq_take, List.length_map]
        omega]
    rw [← List.take_add, h3map, List.take_eq_take, List.length_map]
    omega

/-- C3 witness: the cursor-split law instantiated on the concrete
three-document engine with batch size 2, first cap 1 and second cap 7. -/
theorem search_with_pit_cursor_split_witness :
    EngineSorted engineW ∧ 0 < 2
    ∧ (search_with_pit engineW 2 1 none).1
          ++ (search_with_pit engineW 2 7 ((search_with_pit engineW 2 1 none).2)).1
        = (search_with_pit engineW 2 (1 + 7) none).1 :=
  ⟨by unfold EngineSorted; decide, by decide,
    search_with_pit_cursor_split engineW 2 1 7 (by unfold EngineSorted; decide) (by decide)⟩

/-- C4: a scan step that returns a nonempty hit list shorter than the batch
size, while the emitted total is still below the cap, does not terminate the
scan: the trace from that state contains at least a second page request. -/
theorem scan_continues_after_short_page (engine : List Hit) (B M fuel total : Nat)
    (c : Option Nat) (hits : List Hit)
    (hserve : servePage engine c (min B (M - total)) = hits)
    (hne : hits ≠ []) (hshort : hits.length < B)
    (htot : total < M) (hmore : total + hits.length < M)
    (hf : M - total < fuel) :
    2 ≤ (scanGo engine B M fuel total c).1.length := by
  cases fuel with
  | zero => omega
  | succ fuel =>
    rcases hits with _ | ⟨h0, rest⟩
    · exact absurd rfl hne
    · rw [scanGo_eq_cons engine B M fuel total c h0 rest htot hserve]
      have hnext :=
        scanGo_ne_nil engine B M fuel (total + (h0 :: rest).length)
          (some (((h0 :: rest).getLast (List.cons_ne_nil h0 rest)).sortKey))
          (by simp only [List.length_cons] at hmore ⊢; omega) (by omega)
      have := List.length_pos.mpr hnext
      exact Nat.succ_le_succ this

/-- C4 witness: a one-document engine scanned with batch size 2 and
cap 5 returns a short nonempty first page, and the scan issues a second page
request. -/
theorem scan_continues_after_short_page_witness :
    servePage [(⟨0, 1⟩ : Hit)] none (min 2 (5 - 0)) = [⟨0, 1⟩]
    ∧ ([(⟨0, 1⟩ : Hit)] : List Hit) ≠ []
    ∧ ([(⟨0, 1⟩ : Hit)]).length < 2
    ∧ 0 < 5 ∧ 0 + ([(⟨0, 1⟩ : Hit)]).length < 5 ∧ 5 - 0 < 6
    ∧ 2 ≤ (scanGo [(⟨0, 1⟩ : Hit)] 2 5 6 0 none).1.length :=
  ⟨by decide, by decide, by decide, by decide, by decide, by decide,
    scan_continues_after_short_page [⟨0, 1⟩] 2 5 6 0 none [⟨0, 1⟩]
      (by decide) (by decide) (by decide) (by decide) (by decide) (by decide)⟩

/-- Opaque JSON payload values passed by callers of the builder. -/
inductive Val where
  | s (v : String)
  | n (v : Int)
  | b (v : Bool)
deriving DecidableEq

/-- The four clause groups of a boolean container, cf. the `should` / `filter`
/ `must` / `must_not` methods. -/
inductive ClauseType where
  | must
  | should
  | filter
  | must_not
deriving DecidableEq

/-- Classification of the exceptions of `query_builder.py`.  Python raises
`QueryBuilderException(message)`; each constructor stands for one message
family of the source (the argument keeps the varying part of the message).
`keyError` stands for a Python `KeyError` (reachable once `build()` has
popped the `"query"` key of an empty builder). -/
inductive QBError where
  | structuralConflict (key : String)
  | missingBound
  | cannotNest
  | subQueryEmpty
  | missingBool
  | notApplicable
  | invalidParameter (key : String)
  | keyError (key : String)
deriving DecidableEq

/-- A bare top-level leaf predicate, i.e. the single key set directly in
`query["query"]` by a leaf call made outside boolean-container mode.  Note
`termL` stands for the bare shape `{"term": {field: {"value": v}}}` (the
source wraps the value) while in boolean mode `term` appends the unwrapped
`{"term": {field: v}}`. -/
inductive LeafPred where
  | matchL (field : String) (value : Val)
  | matchPhraseL (field : String) (value : Val)
  | termL (field : String) (value : Val)
  | termsL (field : String) (values : List Val)
  | queryStringL (field : String) (value : Val)
  | rangeL (field : String) (gte lte : Option Val)
  | existsL (field : String)
deriving DecidableEq

/-- An entry of a clause group inside the boolean container: the dictionaries
appended by the leaf calls in boolean-container mode, or a nested boolean
block appended by `add_bool`. -/
inductive BoolEntry where
  | pred (kind : String) (field : String) (value : Val)
  | predTerms (field : String) (values : List Val)
  | qstring (field : String) (value : Val)
  | rangeE (field : String) (gte lte : Option Val)
  | existsE (field : String)
  | nestedBool (groups : List (Option ClauseType × List BoolEntry)) (minShould : Option Int)

/-- State of the dictionary `query["query"]`: still empty, a single bare leaf
predicate, or a boolean container.  The container's clause groups form an
insertion-ordered association list keyed by `current_query_type` (an
`Option ClauseType`, since Python's attribute starts out as `None` and a
`None` key would be legal for `dict.setdefault`). -/
inductive QueryBody where
  | empty
  | leaf (p : LeafPred)
  | boolQ (groups : List (Option ClauseType × List BoolEntry)) (minShould : Option Int)

/-- One aggregation level built by `__aggs_by_type`: the four supported
aggregation kinds with the kind-specific parameters the source stores. -/
inductive AggSpec where
  | terms (field : String) (sort_on sort size : Val)
  | date_histogram (field : String) (fixed_interval : Val)
  | top_hits (size : Val)
  | cardinality (field : String)
deriving DecidableEq

/-- The builder `ElasticQueryBuilder` of query_builder.py.  `queryBody` is the
value under the `"query"` key of `self.query` (`none` once `build()` has
popped that key); `aggsChain` lists the `data` specs of the singly-nested
`aggs.data.aggs.data...` chain from outermost to deepest (the dictionary form
is `aggs = {data: c0, aggs: {data: c1, ...}}`, which is linear by
construction since every level holds exactly the keys `data` and at most one
`aggs`); the remaining fields are the other keys of `self.query` plus the
two plain attributes `current_query_type` and `_aggs_count`. -/
structure ElasticQueryBuilder where
  index : String
  queryBody : Option QueryBody
  currentQueryType : Option ClauseType
  aggsCount : Nat
  aggsChain : List AggSpec
  sortList : List (String × String)
  sizeVal : Option Int
  fromVal : Option Int
  sourceFields : Option (List String)
  scriptVal : Option Val
  trackTotal : Option Bool

/-- The `__init__` state: `self.query = {"query": {}}`, `_aggs_count = 0`,
`current_query_type = None` (the constructor's `track_total_hits` parameter
is ignored by the source). -/
def ElasticQueryBuilder.new (index : String) : ElasticQueryBuilder :=
  ⟨index, some QueryBody.empty, none, 0, [], [], none, none, none, none, none⟩

/-- Append an entry to a clause group following
`dict.setdefault(key, []).append(entry)`: extend the group if the key exists,
otherwise add a new group at the end. -/
def appendGroup (groups : List (Option ClauseType × List BoolEntry))
    (k : Option ClauseType) (e : BoolEntry) :
    List (Option ClauseType × List BoolEntry) :=
  match groups with
  | [] => [(k, [e])]
  | (k', es) :: rest =>
    if k' = k then (k', es ++ [e]) :: rest else (k', es) :: appendGroup rest k e

/-- The `match` method (lines 18-30): in boolean-container mode append
`{"match": {field: value}}` to the current clause group; otherwise fail with
`"Cannot use match query"` if any key is already set in `query["query"]`,
else set the bare predicate. -/
def ElasticQueryBuilder.match' (b : ElasticQueryBuilder) (field : String) (value : Val) :
    Except (QBError × ElasticQueryBuilder) ElasticQueryBuilder :=
  match b.queryBody with
  | none => .error (.keyError "query", b)
  | some (.boolQ g ms) =>
    .ok { b with queryBody := some (.boolQ (appendGroup g b.currentQueryType (.pred "match" field value)) ms) }
  | some .empty => .ok { b with queryBody := some (.leaf (.matchL field value)) }
  | some (.leaf _) => .error (.structuralConflict "match", b)

/-- The `match_phrase` method (lines 32-44), same structure as `match`. -/
def ElasticQueryBuilder.match_phrase (b : ElasticQueryBuilder) (field : String) (value : Val) :
    Except (QBError × ElasticQueryBuilder) ElasticQueryBuilder :=
  match b.queryBody with
  | none => .error (.keyError "query", b)
  | some (.boolQ g ms) =>
    .ok { b with queryBody := some (.boolQ (appendGroup g b.currentQueryType (.pred "match_phrase" field value)) ms) }
  | some .empty => .ok { b with queryBody := some (.leaf (.matchPhraseL field value)) }
  | some (.leaf _) => .error (.structuralConflict "match_phrase", b)

/-- The `term` method (lines 46-58): appends `{"term": {field: value}}` in
boolean mode, sets the bare `{"term": {field: {"value": value}}}` otherwise. -/
def ElasticQueryBuilder.term (b : ElasticQueryBuilder) (field : String) (value : Val) :
    Except (QBError × ElasticQueryBuilder) ElasticQueryBuilder :=
  match b.queryBody with
  | none => .error (.keyError "query", b)
  | some (.boolQ g ms) =>
    .ok { b with queryBody := some (.boolQ (appendGroup g b.currentQueryType (.pred "term" field value)) ms) }
  | some .empty => .ok { b with queryBody := some (.leaf (.termL field value)) }
  | some (.leaf _) => .error (.structuralConflict "term", b)

/-- The `terms` method (lines 60-72). -/
def ElasticQueryBuilder.terms (b : ElasticQueryBuilder) (field : String) (values : List Val) :
    Except (QBError × ElasticQueryBuilder) ElasticQueryBuilder :=
  match b.queryBody with
  | none => .error (.keyError "query", b)
  | some (.boolQ g ms) =>
    .ok { b with queryBody := some (.boolQ (appendGroup g b.currentQueryType (.predTerms field values)) ms) }
  | some .empty => .ok { b with queryBody := some (.leaf (.termsL field values)) }
  | some (.leaf _) => .error (.structuralConflict "terms", b)

/-- The `query_string` method (lines 74-94). -/
def ElasticQueryBuilder.query_string (b : ElasticQueryBuilder) (field : String) (value : Val) :
    Except (QBError × ElasticQueryBuilder) ElasticQueryBuilder :=
  match b.queryBody with
  | none => .error (.keyError "query", b)
  | some (.boolQ g ms) =>
    .ok { b with queryBody := some (.boolQ (appendGroup g b.currentQueryType (.qstring field value)) ms) }
  | some .empty => .ok { b with queryBody := some (.leaf (.queryStringL field value)) }
  | some (.leaf _) => .error (.structuralConflict "query_string", b)

/-- The `range` method (lines 96-115): the `"Must provide either gte or lte"`
check comes first in the source (before any inspection of the query state),
then the usual boolean-mode/bare split. -/
def ElasticQueryBuilder.range (b : ElasticQueryBuilder) (field : String)
    (gte lte : Option Val) :
    Except (QBError × ElasticQueryBuilder) ElasticQueryBuilder :=
  if gte = none ∧ lte = none then .error (.missingBound, b)
  else
    match b.queryBody with
    | none => .error (.keyError "query", b)
    | some (.boolQ g ms) =>
      .ok { b with queryBody := some (.boolQ (appendGroup g b.currentQueryType (.rangeE field gte lte)) ms) }
    | some .empty => .ok { b with queryBody := some (.leaf (.rangeL field gte lte)) }
    | some (.leaf _) => .error (.structuralConflict "range", b)

/-- The `exists` method (lines 117-129). -/
def ElasticQueryBuilder.exists' (b : ElasticQueryBuilder) (field : String) :
    Except (QBError × ElasticQueryBuilder) ElasticQueryBuilder :=
  match b.queryBody with
  | none => .error (.keyError "query", b)
  | some (.boolQ g ms) =>
    .ok { b with queryBody := some (.boolQ (appendGroup g b.currentQueryType (.existsE field)) ms) }
  | some .empty => .ok { b with queryBody := some (.leaf (.existsL field)) }
  | some (.leaf _) => .error (.structuralConflict "exists", b)

/-- The private `__setup_multi_conditional_query` helper (lines 147-154): if
no boolean container exists yet, fail with
`"Cannot use {query_type} conditional query"` when a bare predicate is
present, else install an empty container. -/
def ElasticQueryBuilder.setupMulti (b : ElasticQueryBuilder) (queryType : String) :
    Except (QBError × ElasticQueryBuilder) ElasticQueryBuilder :=
  match b.queryBody with
  | none => .error (.keyError "query", b)
  | some (.boolQ _ _) => .ok b
  | some .empty => .ok { b with queryBody := some (.boolQ [] none) }
  | some (.leaf _) => .error (.structuralConflict queryType, b)

/-- The `should` clause selector (lines 156-159). -/
def ElasticQueryBuilder.should (b : ElasticQueryBuilder) :
    Except (QBError × ElasticQueryBuilder) ElasticQueryBuilder :=
  (b.setupMulti "should").map (fun b' => { b' with currentQueryType := some ClauseType.should })

/-- The `filter` clause selector (lines 161-164). -/
def ElasticQueryBuilder.filter (b : ElasticQueryBuilder) :
    Except (QBError × ElasticQueryBuilder) ElasticQueryBuilder :=
  (b.setupMulti "filter").map (fun b' => { b' with currentQueryType := some ClauseType.filter })

/-- The `must` clause selector (lines 166-169). -/
def ElasticQueryBuilder.must (b : ElasticQueryBuilder) :
    Except (QBError × ElasticQueryBuilder) ElasticQueryBuilder :=
  (b.setupMulti "must").map (fun b' => { b' with currentQueryType := some ClauseType.must })

/-- The `must_not` clause selector (lines 171-174). -/
def ElasticQueryBuilder.must_not (b : ElasticQueryBuilder) :
    Except (QBError × ElasticQueryBuilder) ElasticQueryBuilder :=
  (b.setupMulti "must_not").map
    (fun b' => { b' with currentQueryType := some ClauseType.must_not })

/-- The dictionary `self.query` as returned by `build()`: every key of the
request-body dict (the two plain attributes `current_query_type` and
`_aggs_count` are not part of it). -/
structure QueryDoc where
  queryKey : Option QueryBody
  aggsKey : List AggSpec
  sortKey : List (String × String)
  sizeKey : Option Int
  fromKey : Option Int
  sourceKey : Option (List String)
  scriptKey : Option Val
  trackKey : Option Bool

/-- Projection of a builder onto its `self.query` dictionary. -/
def docOf (b : ElasticQueryBuilder) : QueryDoc :=
  ⟨b.queryBody, b.aggsChain, b.sortList, b.sizeVal, b.fromVal, b.sourceFields,
    b.scriptVal, b.trackTotal⟩

/-- Python truthiness of the `self.query` dict: falsy iff it has no keys at
all (`if not query` in `add_bool`). -/
def QueryDoc.isEmptyDoc (d : QueryDoc) : Bool :=
  d.queryKey.isNone && d.aggsKey.isEmpty && d.sortKey.isEmpty && d.sizeKey.isNone &&
    d.fromKey.isNone && d.sourceKey.isNone && d.scriptKey.isNone && d.trackKey.isNone

/-- The `build` method (lines 282-286): `if not self.query["query"]:
self.query.pop("query")`, then return `self.query`.  Looking up
`self.query["query"]` raises `KeyError` when a previous `build()` already
popped the key; popping it is a genuine mutation of the builder. -/
def ElasticQueryBuilder.build (b : ElasticQueryBuilder) :
    Except (QBError × ElasticQueryBuilder) (QueryDoc × ElasticQueryBuilder) :=
  match b.queryBody with
  | none => .error (.keyError "query", b)
  | some QueryBody.empty =>
    .ok (docOf { b with queryBody := none }, { b with queryBody := none })
  | some _ => .ok (docOf b, b)

/-- The `add_bool` method (lines 131-145): requires the receiver to be in
boolean-container mode (`"Cannot add bool query"`), builds the sub-builder
(mutating it, which the receiver does not observe), requires the built dict
to be truthy (`"sub_query must contain query"`) and its `query` body to be a
`bool` container (`"sub_query must contain bool query"`), then appends that
body to the current clause group.  The `isinstance` guard is enforced by the
type of `sub`. -/
def ElasticQueryBuilder.add_bool (b sub : ElasticQueryBuilder) :
    Except (QBError × ElasticQueryBuilder) ElasticQueryBuilder :=
  match b.queryBody with
  | none => .error (.keyError "query", b)
  | some QueryBody.empty => .error (.cannotNest, b)
  | some (.leaf _) => .error (.cannotNest, b)
  | some (.boolQ g ms) =>
    match sub.build with
    | .error (e, _) => .error (e, b)
    | .ok (doc, _) =>
      if doc.isEmptyDoc then .error (.subQueryEmpty, b)
      else
        match doc.queryKey with
        | none => .error (.keyError "query", b)
        | some (.boolQ g2 ms2) =>
          .ok { b with queryBody := some (.boolQ
            (appendGroup g b.currentQueryType (.nestedBool g2 ms2)) ms) }
        | some _ => .error (.missingBool, b)

/-- The `query_size` setter (lines 176-178). -/
def ElasticQueryBuilder.query_size (b : ElasticQueryBuilder) (size : Int) :
    ElasticQueryBuilder :=
  { b with sizeVal := some size }

/-- The `from_size` setter (lines 180-193). -/
def ElasticQueryBuilder.from_size (b : ElasticQueryBuilder) (fromValue size : Int) :
    ElasticQueryBuilder :=
  { b with fromVal := some fromValue, sizeVal := some size }

/-- The `source` setter (lines 195-198): only assigns when at least one field
is given. -/
def ElasticQueryBuilder.source (b : ElasticQueryBuilder) (src : List String) :
    ElasticQueryBuilder :=
  if 0 < src.length then { b with sourceFields := some src } else b

/-- The `add_script` setter (lines 200-202). -/
def ElasticQueryBuilder.add_script (b : ElasticQueryBuilder) (script : Val) :
    ElasticQueryBuilder :=
  { b with scriptVal := some script }

/-- The `track_total_hits` setter (lines 262-264). -/
def ElasticQueryBuilder.track_total_hits (b : ElasticQueryBuilder) (t : Bool) :
    ElasticQueryBuilder :=
  { b with trackTotal := some t }

/-- The `minimum_should_match` method (lines 266-270): fails with
`"Cannot add minimum_should_match query"` unless a boolean container exists
(the source checks nothing else — in particular not the presence of a
`should` group), then stores the value in the container. -/
def ElasticQueryBuilder.minimum_should_match (b : ElasticQueryBuilder) (m : Int) :
    Except (QBError × ElasticQueryBuilder) ElasticQueryBuilder :=
  match b.queryBody with
  | none => .error (.keyError "query", b)
  | some (.boolQ g _) => .ok { b with queryBody := some (.boolQ g (some m)) }
  | some QueryBody.empty => .error (.notApplicable, b)
  | some (.leaf _) => .error (.notApplicable, b)

/-- The `sort` method (lines 272-276): validates the order, then appends to
the sort list (`dict.setdefault("sort", []).append(...)`). -/
def ElasticQueryBuilder.sort (b : ElasticQueryBuilder) (field order : String) :
    Except (QBError × ElasticQueryBuilder) ElasticQueryBuilder :=
  if order = "desc" ∨ order = "asc" then
    .ok { b with sortList := b.sortList ++ [(field, order)] }
  else .error (.invalidParameter "order", b)

/-- The keyword arguments accepted by `aggs` / `__aggs_by_type`; a `none`
field means the key is absent from `kwargs`. -/
structure AggKwargs where
  size : Option Val
  sort : Option Val
  sort_on : Option Val
  aggs_type : Option Val
  fixed_interval : Option Val
deriving DecidableEq

/-- The empty keyword-argument dictionary. -/
def AggKwargs.none' : AggKwargs := ⟨none, none, none, none, none⟩

/-- The nested `get("sort", default)` of `__aggs_by_type` (lines 205-213):
resolve the value (falling back to the default) and reject anything outside
`["desc", "asc"]` with `"sort must be either desc or asc"`. -/
def getSortArg (kw : AggKwargs) (default : Val) : Except QBError Val :=
  let v := kw.sort.getD default
  if v = Val.s "desc" ∨ v = Val.s "asc" then .ok v
  else .error (.invalidParameter "sort")

/-- The nested `get("aggs_type", default)`: reject anything outside the four
supported kinds with `"aggs_type must be either terms, date_histogram,
top_hits, or cardinality"`. -/
def getAggsTypeArg (kw : AggKwargs) (default : Val) : Except QBError Val :=
  let v := kw.aggs_type.getD default
  if v = Val.s "terms" ∨ v = Val.s "date_histogram" ∨ v = Val.s "top_hits" ∨
      v = Val.s "cardinality" then .ok v
  else .error (.invalidParameter "aggs_type")

/-- The nested `get("sort_on", default)`: reject anything outside
`["_count", "_key"]` with `"sort_on must be either _count or _key"`. -/
def getSortOnArg (kw : AggKwargs) (default : Val) : Except QBError Val :=
  let v := kw.sort_on.getD default
  if v = Val.s "_count" ∨ v = Val.s "_key" then .ok v
  else .error (.invalidParameter "sort_on")

/-- The private `__aggs_by_type` (lines 204-223).  `aggs_type` is always
fetched (and hence validated) first; `sort_on` and `sort` are fetched — and
so validated — only on the `terms` branch, in dictionary-display order (the
`order` key's key expression before its value expression); `size` and
`fixed_interval` are fetched without validation.  The final branch is
`cardinality`: the validation of `aggs_type` guarantees the `elif` chain is
exhaustive over the four kinds. -/
def aggs_by_type (field : String) (kw : AggKwargs) : Except QBError AggSpec := do
  let t ← getAggsTypeArg kw (Val.s "terms")
  if t = Val.s "terms" then do
    let so ← getSortOnArg kw (Val.s "_count")
    let sd ← getSortArg kw (Val.s "desc")
    pure (AggSpec.terms field so sd (kw.size.getD (Val.n 10)))
  else if t = Val.s "date_histogram" then
    pure (AggSpec.date_histogram field (kw.fixed_interval.getD (Val.s "1d")))
  else if t = Val.s "top_hits" then
    pure (AggSpec.top_hits (kw.size.getD (Val.n 1)))
  else
    pure (AggSpec.cardinality field)

/-- The positional-argument merge at the top of `aggs` (lines 243-246):
`args[0]` fills `size` and `args[1]` fills `sort` when those keys are absent
from `kwargs`. -/
def mergeArgs (args : List Val) (kw : AggKwargs) : AggKwargs :=
  let kw1 :=
    match args with
    | [] => kw
    | a :: _ => if kw.size = none then { kw with size := some a } else kw
  match args with
  | _ :: a2 :: _ => if kw1.sort = none then { kw1 with sort := some a2 } else kw1
  | _ => kw1

/-- The `aggs` method (lines 225-260): merge positional arguments, build the
level's spec via `__aggs_by_type` (whose exception propagates before any
state change), then attach it.  With `_aggs_count = 0` the whole `aggs` key
is overwritten with the one-level chain; otherwise the source walks
`parent = parent["aggs"]["data"]` `_aggs_count` times — demanding the chain
be at least that long, else `KeyError` — and overwrites the `aggs` key of the
level it reached, which in list form keeps the first `_aggs_count` levels and
appends the new one.  `_aggs_count` is incremented on success. -/
def ElasticQueryBuilder.aggs (b : ElasticQueryBuilder) (field : String)
    (args : List Val) (kw : AggKwargs) :
    Except (QBError × ElasticQueryBuilder) ElasticQueryBuilder :=
  let kw2 := mergeArgs args kw
  match aggs_by_type field kw2 with
  | .error e => .error (e, b)
  | .ok spec =>
    if b.aggsCount = 0 then
      .ok { b with aggsChain := [spec], aggsCount := b.aggsCount + 1 }
    else if b.aggsCount ≤ b.aggsChain.length then
      .ok { b with aggsChain := b.aggsChain.take b.aggsCount ++ [spec], aggsCount := b.aggsCount + 1 }
    else .error (.keyError "aggs", b)

/-- A leaf-predicate call together with its arguments, for quantifying over
the seven leaf methods. -/
inductive LeafCall where
  | matchC (field : String) (value : Val)
  | matchPhraseC (field : String) (value : Val)
  | termC (field : String) (value : Val)
  | termsC (field : String) (values : List Val)
  | queryStringC (field : String) (value : Val)
  | rangeC (field : String) (gte lte : Option Val)
  | existsC (field : String)
deriving DecidableEq

/-- Dispatch a leaf call to the corresponding method. -/
def applyLeaf (lc : LeafCall) (b : ElasticQueryBuilder) :
    Except (QBError × ElasticQueryBuilder) ElasticQueryBuilder :=
  match lc with
  | .matchC f v => b.match' f v
  | .matchPhraseC f v => b.match_phrase f v
  | .termC f v => b.term f v
  | .termsC f vs => b.terms f vs
  | .queryStringC f v => b.query_string f v
  | .rangeC f g l => b.range f g l
  | .existsC f => b.exists' f

/-- Well-formedness of a leaf call: a `range` call must carry at least one
bound (the data model requires it; a boundless `range` fails with its own
`MissingBound` error before any structural check). -/
def leafWF : LeafCall → Bool
  | .rangeC _ g l => g.isSome || l.isSome
  | _ => true

/-- Dispatch a clause-selector call to the corresponding method. -/
def applySelector (ct : ClauseType) (b : ElasticQueryBuilder) :
    Except (QBError × ElasticQueryBuilder) ElasticQueryBuilder :=
  match ct with
  | .must => b.must
  | .should => b.should
  | .filter => b.filter
  | .must_not => b.must_not

/-- Every builder method that can raise a `QueryBuilderException`, with its
arguments. -/
inductive BuilderOp where
  | leafO (lc : LeafCall)
  | selectorO (ct : ClauseType)
  | addBoolO (sub : ElasticQueryBuilder)
  | aggsO (field : String) (args : List Val) (kw : AggKwargs)
  | sortO (field order : String)
  | minShouldO (m : Int)

/-- Dispatch an arbitrary fallible builder operation. -/
def applyOp (op : BuilderOp) (b : ElasticQueryBuilder) :
    Except (QBError × ElasticQueryBuilder) ElasticQueryBuilder :=
  match op with
  | .leafO lc => applyLeaf lc b
  | .selectorO ct => applySelector ct b
  | .addBoolO sub => b.add_bool sub
  | .aggsO f a kw => b.aggs f a kw
  | .sortO f o => b.sort f o
  | .minShouldO m => b.minimum_should_match m

/-- Does a method result report a structural conflict
(`"Cannot use ... query"`)? -/
def isStructuralConflict
    (r : Except (QBError × ElasticQueryBuilder) ElasticQueryBuilder) : Bool :=
  match r with
  | .error (.structuralConflict _, _) => true
  | _ => false

/-- Did a method call succeed? -/
def isOkRes (r : Except (QBError × ElasticQueryBuilder) ElasticQueryBuilder) : Bool :=
  match r with
  | .ok _ => true
  | _ => false

/-- Does the builder currently hold a boolean container with a `should`
clause group? -/
def hasShouldGroup (b : ElasticQueryBuilder) : Bool :=
  match b.queryBody with
  | some (.boolQ g _) => g.any (fun gr => gr.1 = some ClauseType.should)
  | _ => false

/-- Does the builder currently hold a boolean container at all? -/
def hasBoolContainer (b : ElasticQueryBuilder) : Bool :=
  match b.queryBody with
  | some (.boolQ _ _) => true
  | _ => false

/-- Extract the builder from a method result (on error, the post-exception
state). -/
def getOk (r : Except (QBError × ElasticQueryBuilder) ElasticQueryBuilder) :
    ElasticQueryBuilder :=
  match r with
  | .ok b => b
  | .error (_, b) => b

/-- C5: the query root is exclusive.  On any builder whose query body holds a
bare leaf predicate, every further leaf-predicate call (any of the seven,
well-formed in that a `range` call carries a bound) and every clause-selector
call fails with a StructuralConflict error. -/
theorem bare_predicate_exclusive (b : ElasticQueryBuilder) (p : LeafPred)
    (hb : b.queryBody = some (QueryBody.leaf p)) :
    (∀ lc : LeafCall, leafWF lc = true → isStructuralConflict (applyLeaf lc b) = true)
    ∧ ∀ ct : ClauseType, isStructuralConflict (applySelector ct b) = true := by
  constructor
  · intro lc hwf
    cases lc with
    | matchC f v => simp [applyLeaf, ElasticQueryBuilder.match', hb, isStructuralConflict]
    | matchPhraseC f v =>
      simp [applyLeaf, ElasticQueryBuilder.match_phrase, hb, isStructuralConflict]
    | termC f v => simp [applyLeaf, ElasticQueryBuilder.term, hb, isStructuralConflict]
    | termsC f vs => simp [applyLeaf, ElasticQueryBuilder.terms, hb, isStructuralConflict]
    | queryStringC f v =>
      simp [applyLeaf, ElasticQueryBuilder.query_string, hb, isStructuralConflict]
    | rangeC f g l =>
      simp only [applyLeaf, ElasticQueryBuilder.range]
      rw [if_neg (by cases g <;> cases l <;> simp_all [leafWF])]
      simp [hb, isStructuralConflict]
    | existsC f => simp [applyLeaf, ElasticQueryBuilder.exists', hb, isStructuralConflict]
  · intro ct
    cases ct <;>
      simp [applySelector, ElasticQueryBuilder.must, ElasticQueryBuilder.should,
        ElasticQueryBuilder.filter, ElasticQueryBuilder.must_not,
        ElasticQueryBuilder.setupMulti, hb, isStructuralConflict, Except.map]

/-- A builder holding the bare predicate `{"match": {"f": "v"}}`. -/
def leafB : ElasticQueryBuilder := getOk ((ElasticQueryBuilder.new "").match' ("f") (Val.s "v"))

/-- C5 witness: on the concrete bare-predicate builder, a second leaf call
(`term`) and a first clause selector (`must`) both fail with
StructuralConflict. -/
theorem bare_predicate_exclusive_witness :
    leafB.queryBody = some (QueryBody.leaf (LeafPred.matchL "f" (Val.s "v")))
    ∧ leafWF (LeafCall.termC "g" (Val.s "w")) = true
    ∧ isStructuralConflict (applyLeaf (LeafCall.termC "g" (Val.s "w")) leafB) = true
    ∧ isStructuralConflict (applySelector ClauseType.must leafB) = true :=
  ⟨rfl, rfl, (bare_predicate_exclusive leafB _ rfl).1 _ rfl,
    (bare_predicate_exclusive leafB _ rfl).2 ClauseType.must⟩

/-- C6 (code bug): on a builder with zero predicate calls, the first `build()`
returns the document without the `query` key but pops that key from the
builder's own dictionary, so the second `build()` raises `KeyError("query")`
instead of returning the document again — `build()` is not idempotent on such
a builder. -/
theorem build_not_idempotent_on_empty_builder :
    (ElasticQueryBuilder.new "").build
        = .ok (docOf { ElasticQueryBuilder.new "" with queryBody := none },
            { ElasticQueryBuilder.new "" with queryBody := none })
    ∧ (docOf { ElasticQueryBuilder.new "" with queryBody := none }).queryKey = none
    ∧ ({ ElasticQueryBuilder.new "" with queryBody := none } : ElasticQueryBuilder).build
        = .error (.keyError "query", { ElasticQueryBuilder.new "" with queryBody := none }) :=
  ⟨rfl, rfl, rfl⟩

/-- C7 amended: `minimum_should_match` succeeds exactly when a boolean
container exists — regardless of whether it has a `should` group — and fails
with NotApplicable on an empty or bare-leaf query body. -/
theorem minimum_should_match_iff_bool_container (b : ElasticQueryBuilder) (m : Int) :
    (hasBoolContainer b = true → isOkRes (b.minimum_should_match m) = true)
    ∧ (b.queryBody = some QueryBody.empty →
        b.minimum_should_match m = .error (.notApplicable, b))
    ∧ ∀ p, b.queryBody = some (QueryBody.leaf p) →
        b.minimum_should_match m = .error (.notApplicable, b) := by
  refine ⟨?_, ?_, ?_⟩
  · intro hbc
    rcases hq : b.queryBody with _ | qb
    · simp [hasBoolContainer, hq] at hbc
    · cases qb with
      | empty => simp [hasBoolContainer, hq] at hbc
      | leaf p => simp [hasBoolContainer, hq] at hbc
      | boolQ g ms => simp [ElasticQueryBuilder.minimum_should_match, hq, isOkRes]
  · intro hq
    simp [ElasticQueryBuilder.minimum_should_match, hq]
  · intro p hq
    simp [ElasticQueryBuilder.minimum_should_match, hq]

/-- C7 witness: on a fresh builder (no boolean container),
`minimum_should_match` fails with NotApplicable. -/
theorem minimum_should_match_iff_bool_container_witness :
    (ElasticQueryBuilder.new "").queryBody = some QueryBody.empty
    ∧ (ElasticQueryBuilder.new "").minimum_should_match 2
        = .error (.notApplicable, ElasticQueryBuilder.new "") :=
  ⟨rfl, (minimum_should_match_iff_bool_container (ElasticQueryBuilder.new "") 2).2.1 rfl⟩

/-- A builder in boolean-container mode holding only a `must` group. -/
def mustOnlyB : ElasticQueryBuilder :=
  getOk ((getOk ((ElasticQueryBuilder.new "").must)).match' ("status") (Val.s "active"))

/-- C7 counterexample: on a builder whose boolean container has a `must`
group and no `should` group, `minimum_should_match` nevertheless succeeds,
refuting the claim that it is only settable when a `should` group exists. -/
theorem minimum_should_match_without_should_group :
    hasBoolContainer mustOnlyB = true
    ∧ hasShouldGroup mustOnlyB = false
    ∧ isOkRes (mustOnlyB.minimum_should_match 2) = true :=
  ⟨rfl, rfl, rfl⟩

/-- Validity of an `aggs_type` keyword value under the `get` validation: the
key may be absent (the default `"terms"` is valid) or one of the four kind
names. -/
def validAggsType : Option Val → Bool
  | none => true
  | some x => x = Val.s "terms" || x = Val.s "date_histogram" || x = Val.s "top_hits" ||
      x = Val.s "cardinality"

/-- Validity of a `sort` keyword value: absent, `"desc"` or `"asc"`. -/
def validSort : Option Val → Bool
  | none => true
  | some x => x = Val.s "desc" || x = Val.s "asc"

/-- Validity of a `sort_on` keyword value: absent, `"_count"` or `"_key"`. -/
def validSortOn : Option Val → Bool
  | none => true
  | some x => x = Val.s "_count" || x = Val.s "_key"

/-- C8 amended: in an `aggs` call, an invalid `aggs_type` always fails with
InvalidParameter; an invalid `sort_on` or `sort` fails only when the
aggregation kind resolves to `terms` (absent or explicit), `sort_on` being
checked before `sort`; and with kind `date_histogram`, `top_hits` or
`cardinality` the call succeeds even when `sort` or `sort_on` is invalid,
because the source only fetches (and thus validates) those keys on the
`terms` branch. -/
theorem aggs_validation_by_kind (b : ElasticQueryBuilder) (f : String) (kw : AggKwargs)
    (hinv : b.aggsCount ≤ b.aggsChain.length) :
    (validAggsType kw.aggs_type = false →
        b.aggs f [] kw = .error (.invalidParameter "aggs_type", b))
    ∧ ((kw.aggs_type = none ∨ kw.aggs_type = some (Val.s "terms")) →
        validSortOn kw.sort_on = false →
        b.aggs f [] kw = .error (.invalidParameter "sort_on", b))
    ∧ ((kw.aggs_type = none ∨ kw.aggs_type = some (Val.s "terms")) →
        validSortOn kw.sort_on = true → validSort kw.sort = false →
        b.aggs f [] kw = .error (.invalidParameter "sort", b))
    ∧ ((kw.aggs_type = some (Val.s "date_histogram")
          ∨ kw.aggs_type = some (Val.s "top_hits")
          ∨ kw.aggs_type = some (Val.s "cardinality")) →
        isOkRes (b.aggs f [] kw) = true) := by
  obtain ⟨sz, srt, son, aty, fi⟩ := kw
  refine ⟨?_, ?_, ?_, ?_⟩
  · intro hv
    cases aty with
    | none => simp [validAggsType] at hv
    | some x =>
      simp only [validAggsType, Bool.or_eq_false_iff, decide_eq_false_iff_not] at hv
      obtain ⟨⟨⟨h1, h2⟩, h3⟩, h4⟩ := hv
      simp [ElasticQueryBuilder.aggs, mergeArgs, aggs_by_type, getAggsTypeArg,
        h1, h2, h3, h4, bind, Except.bind, pure, Except.pure, Functor.map, Except.map]
  · rintro (rfl | rfl) hso
    all_goals
      cases son with
      | none => simp [validSortOn] at hso
      | some y =>
        simp only [validSortOn, Bool.or_eq_false_iff, decide_eq_false_iff_not] at hso
        obtain ⟨h1, h2⟩ := hso
        simp [ElasticQueryBuilder.aggs, mergeArgs, aggs_by_type, getAggsTypeArg,
          getSortOnArg, h1, h2, bind, Except.bind, pure, Except.pure, Functor.map, Except.map]
  · rintro (rfl | rfl) hso hs
    all_goals
      cases srt with
      | none => simp [validSort] at hs
      | some y =>
        simp only [validSort, Bool.or_eq_false_iff, decide_eq_false_iff_not] at hs
        obtain ⟨h1, h2⟩ := hs
        cases son with
        | none =>
          simp [ElasticQueryBuilder.aggs, mergeArgs, aggs_by_type, getAggsTypeArg,
            getSortOnArg, getSortArg, h1, h2, bind, Except.bind, pure, Except.pure, Functor.map, Except.map]
        | some z =>
          simp only [validSortOn, Bool.or_eq_true, decide_eq_true_eq] at hso
          rcases hso with rfl | rfl
          all_goals
            simp [ElasticQueryBuilder.aggs, mergeArgs, aggs_by_type, getAggsTypeArg,
              getSortOnArg, getSortArg, h1, h2, bind, Except.bind, pure, Except.pure,
              Functor.map, Except.map]
  · rintro (rfl | rfl | rfl)
    all_goals
      by_cases h0 : b.aggsCount = 0
      all_goals
        simp [ElasticQueryBuilder.aggs, mergeArgs, aggs_by_type, getAggsTypeArg, bind,
          Except.bind, pure, Except.pure, Functor.map, Except.map, h0, hinv, isOkRes]

/-- Keyword arguments with kind `date_histogram` and an invalid `sort`. -/
def cexKw8 : AggKwargs :=
  { AggKwargs.none' with aggs_type := some (Val.s "date_histogram"), sort := some (Val.s "bogus") }

/-- C8 counterexample: an `aggs` call whose `sort` value is invalid succeeds
when `aggs_type` is `date_histogram`, refuting the claim that an invalid
`sort` fails for every aggregation kind. -/
theorem aggs_invalid_sort_accepted_for_date_histogram :
    validSort cexKw8.sort = false
    ∧ isOkRes ((ElasticQueryBuilder.new "").aggs "f" [] cexKw8) = true :=
  ⟨rfl, rfl⟩

/-- C8 witness: the amended validation instantiated on a fresh builder with an
invalid `aggs_type`. -/
theorem aggs_validation_by_kind_witness :
    (ElasticQueryBuilder.new "").aggsCount ≤ (ElasticQueryBuilder.new "").aggsChain.length
    ∧ validAggsType (some (Val.s "bogus")) = false
    ∧ (ElasticQueryBuilder.new "").aggs "f" []
          { AggKwargs.none' with aggs_type := some (Val.s "bogus") }
        = .error (.invalidParameter "aggs_type", ElasticQueryBuilder.new "") :=
  ⟨Nat.le_refl 0, rfl,
    (aggs_validation_by_kind (ElasticQueryBuilder.new "") "f"
      { AggKwargs.none' with aggs_type := some (Val.s "bogus") } (Nat.le_refl 0)).1 rfl⟩

/-- Run a list of `aggs` calls in sequence, stopping at the first failure. -/
def runAggsCalls (b : ElasticQueryBuilder) :
    List (String × List Val × AggKwargs) →
      Except (QBError × ElasticQueryBuilder) ElasticQueryBuilder
  | [] => .ok b
  | (f, a, kw) :: rest =>
    match b.aggs f a kw with
    | .ok b' => runAggsCalls b' rest
    | .error e => .error e

/-- One successful `aggs` call grows the chain by exactly one level, keeping
`_aggs_count` equal to the chain's depth. -/
theorem aggs_step_depth (b b' : ElasticQueryBuilder) (f : String) (a : List Val)
    (kw : AggKwargs) (hinv : b.aggsCount = b.aggsChain.length)
    (h : b.aggs f a kw = .ok b') :
    b'.aggsCount = b.aggsCount + 1 ∧ b'.aggsChain.length = b.aggsCount + 1 := by
  unfold ElasticQueryBuilder.aggs at h
  simp only [] at h
  cases habt : aggs_by_type f (mergeArgs a kw) with
  | error e => rw [habt] at h; exact absurd h (by simp)
  | ok spec =>
    rw [habt] at h
    by_cases h0 : b.aggsCount = 0
    · simp only [h0, if_true, eq_self_iff_true, Except.ok.injEq] at h
      subst h
      constructor
      · simp [h0]
      · simp [h0]
    · have hle : b.aggsCount ≤ b.aggsChain.length := le_of_eq hinv
      simp [h0, hle] at h
      subst h
      constructor
      · simp
      · simp [List.length_take]
        omega

/-- Depth of the chain after a successful run of `aggs` calls, relative to
the starting state. -/
theorem runAggsCalls_depth (L : List (String × List Val × AggKwargs)) :
    ∀ b b' : ElasticQueryBuilder, b.aggsCount = b.aggsChain.length →
      runAggsCalls b L = .ok b' →
      b'.aggsChain.length = b.aggsChain.length + L.length
        ∧ b'.aggsCount = b'.aggsChain.length := by
  induction L with
  | nil =>
    intro b b' hinv h
    obtain rfl := (Except.ok.injEq _ _).mp h.symm
    simp [hinv]
  | cons hd tl ih =>
    intro b b' hinv h
    obtain ⟨f, a, kw⟩ := hd
    rcases hstep : b.aggs f a kw with e | b1
    · rw [runAggsCalls, hstep] at h
      exact absurd h (by simp)
    · rw [runAggsCalls, hstep] at h
      obtain ⟨hc, hl⟩ := aggs_step_depth b b1 f a kw hinv hstep
      obtain ⟨ih1, ih2⟩ := ih b1 b' (by omega) h
      constructor
      · rw [ih1, hl, List.length_cons]
        omega
      · exact ih2

/-- C9: after `k` successful `aggs` calls on a fresh builder, the built
aggregation chain has exactly `k` singly-nested levels
(`aggs.data(.aggs.data)^(k-1)` in dictionary form) and `_aggs_count = k`. -/
theorem aggs_chain_k_levels (L : List (String × List Val × AggKwargs))
    (b' : ElasticQueryBuilder)
    (h : runAggsCalls (ElasticQueryBuilder.new "") L = .ok b') :
    b'.aggsChain.length = L.length ∧ b'.aggsCount = L.length := by
  obtain ⟨h1, h2⟩ := runAggsCalls_depth L (ElasticQueryBuilder.new "") b' rfl h
  exact ⟨by simpa [ElasticQueryBuilder.new] using h1,
    by rw [h2, h1]; simp [ElasticQueryBuilder.new]⟩

/-- Three concrete `aggs` calls. -/
def aggsCalls3 : List (String × List Val × AggKwargs) :=
  [("a", [], AggKwargs.none'), ("b", [], AggKwargs.none'), ("c", [], AggKwargs.none')]

/-- The builder obtained from the three concrete `aggs` calls. -/
def aggsB3 : ElasticQueryBuilder :=
  getOk (runAggsCalls (ElasticQueryBuilder.new "") aggsCalls3)

/-- C9 witness: the three concrete calls succeed and produce a chain of
exactly three levels. -/
theorem aggs_chain_k_levels_witness :
    runAggsCalls (ElasticQueryBuilder.new "") aggsCalls3 = .ok aggsB3
    ∧ aggsB3.aggsChain.length = 3 ∧ aggsB3.aggsCount = 3 :=
  ⟨rfl, (aggs_chain_k_levels aggsCalls3 aggsB3 rfl).1,
    (aggs_chain_k_levels aggsCalls3 aggsB3 rfl).2⟩

/-- Helper for C10: `match` leaves the builder untouched when it raises. -/
theorem match'_atomic (b b' : ElasticQueryBuilder) (e : QBError) (f : String) (v : Val)
    (h : b.match' f v = .error (e, b')) : b' = b := by
  unfold ElasticQueryBuilder.match' at h
  rcases hq : b.queryBody with _ | (_ | p | ⟨g, ms⟩)
  all_goals rw [hq] at h
  all_goals simp at h
  all_goals exact h.2.symm

/-- Helper for C10: `match_phrase` leaves the builder untouched when it
raises. -/
theorem match_phrase_atomic (b b' : ElasticQueryBuilder) (e : QBError) (f : String) (v : Val)
    (h : b.match_phrase f v = .error (e, b')) : b' = b := by
  unfold ElasticQueryBuilder.match_phrase at h
  rcases hq : b.queryBody with _ | (_ | p | ⟨g, ms⟩)
  all_goals rw [hq] at h
  all_goals simp at h
  all_goals exact h.2.symm

/-- Helper for C10: `term` leaves the builder untouched when it raises. -/
theorem term_atomic (b b' : ElasticQueryBuilder) (e : QBError) (f : String) (v : Val)
    (h : b.term f v = .error (e, b')) : b' = b := by
  unfold ElasticQueryBuilder.term at h
  rcases hq : b.queryBody with _ | (_ | p | ⟨g, ms⟩)
  all_goals rw [hq] at h
  all_goals simp at h
  all_goals exact h.2.symm

/-- Helper for C10: `terms` leaves the builder untouched when it raises. -/
theorem terms_atomic (b b' : ElasticQueryBuilder) (e : QBError) (f : String) (vs : List Val)
    (h : b.terms f vs = .error (e, b')) : b' = b := by
  unfold ElasticQueryBuilder.terms at h
  rcases hq : b.queryBody with _ | (_ | p | ⟨g, ms⟩)
  all_goals rw [hq] at h
  all_goals simp at h
  all_goals exact h.2.symm

/-- Helper for C10: `query_string` leaves the builder untouched when it
raises. -/
theorem query_string_atomic (b b' : ElasticQueryBuilder) (e : QBError) (f : String) (v : Val)
    (h : b.query_string f v = .error (e, b')) : b' = b := by
  unfold ElasticQueryBuilder.query_string at h
  rcases hq : b.queryBody with _ | (_ | p | ⟨g, ms⟩)
  all_goals rw [hq] at h
  all_goals simp at h
  all_goals exact h.2.symm

/-- Helper for C10: `exists` leaves the builder untouched when it raises. -/
theorem exists'_atomic (b b' : ElasticQueryBuilder) (e : QBError) (f : String)
    (h : b.exists' f = .error (e, b')) : b' = b := by
  unfold ElasticQueryBuilder.exists' at h
  rcases hq : b.queryBody with _ | (_ | p | ⟨g, ms⟩)
  all_goals rw [hq] at h
  all_goals simp at h
  all_goals exact h.2.symm

/-- Helper for C10: `range` leaves the builder untouched when it raises
(including the MissingBound raise, which happens before any state access). -/
theorem range_atomic (b b' : ElasticQueryBuilder) (e : QBError) (f : String)
    (gte lte : Option Val) (h : b.range f gte lte = .error (e, b')) : b' = b := by
  unfold ElasticQueryBuilder.range at h
  by_cases hgl : gte = none ∧ lte = none
  · rw [if_pos hgl] at h
    simp at h
    exact h.2.symm
  · rw [if_neg hgl] at h
    rcases hq : b.queryBody with _ | (_ | p | ⟨g, ms⟩)
    all_goals rw [hq] at h
    all_goals simp at h
    all_goals exact h.2.symm

/-- Helper for C10: `__setup_multi_conditional_query` leaves the builder
untouched when it raises. -/
theorem setupMulti_atomic (b b' : ElasticQueryBuilder) (e : QBError) (qt : String)
    (h : b.setupMulti qt = .error (e, b')) : b' = b := by
  unfold ElasticQueryBuilder.setupMulti at h
  rcases hq : b.queryBody with _ | (_ | p | ⟨g, ms⟩)
  all_goals rw [hq] at h
  all_goals simp at h
  all_goals exact h.2.symm

/-- Helper for C10: every clause selector leaves the builder untouched when
it raises (the raise happens inside the setup helper, before
`current_query_type` is reassigned). -/
theorem selector_atomic (ct : ClauseType) (b b' : ElasticQueryBuilder) (e : QBError)
    (h : applySelector ct b = .error (e, b')) : b' = b := by
  cases ct
  all_goals
    simp only [applySelector, ElasticQueryBuilder.must, ElasticQueryBuilder.should,
      ElasticQueryBuilder.filter, ElasticQueryBuilder.must_not] at h
  all_goals
    rcases hsm : b.setupMulti _ with ⟨e2, b2⟩ | b2
  all_goals rw [hsm] at h
  all_goals simp [Except.map] at h
  all_goals exact (h.2.symm).trans (setupMulti_atomic b b2 e2 _ hsm)

/-- Helper for C10: `add_bool` leaves the receiving builder untouched when it
raises (the sub-builder's own `build()` mutation is not part of the
receiver's state). -/
theorem add_bool_atomic (b sub b' : ElasticQueryBuilder) (e : QBError)
    (h : b.add_bool sub = .error (e, b')) : b' = b := by
  unfold ElasticQueryBuilder.add_bool at h
  rcases hq : b.queryBody with _ | (_ | p | ⟨g, ms⟩)
  all_goals rw [hq] at h
  · simp at h; exact h.2.symm
  · simp at h; exact h.2.symm
  · simp at h; exact h.2.symm
  · rcases hsb : sub.build with ⟨e2, s2⟩ | ⟨d, s2⟩
    all_goals rw [hsb] at h
    · simp at h; exact h.2.symm
    · by_cases hD : d.isEmptyDoc = true
      · simp [hD] at h
        exact h.2.symm
      · simp [hD] at h
        rcases hqk : d.queryKey with _ | (_ | p2 | ⟨g2, ms2⟩)
        all_goals rw [hqk] at h
        all_goals simp at h
        all_goals exact h.2.symm

/-- Helper for C10: `aggs` leaves the builder untouched when it raises (the
`__aggs_by_type` validation runs while the level's spec is being built,
before any assignment to the builder). -/
theorem aggs_atomic (b b' : ElasticQueryBuilder) (e : QBError) (f : String)
    (a : List Val) (kw : AggKwargs) (h : b.aggs f a kw = .error (e, b')) : b' = b := by
  unfold ElasticQueryBuilder.aggs at h
  simp only [] at h
  cases habt : aggs_by_type f (mergeArgs a kw) with
  | error e2 =>
    rw [habt] at h
    simp at h
    exact h.2.symm
  | ok spec =>
    rw [habt] at h
    by_cases h0 : b.aggsCount = 0
    · simp [h0] at h
    · by_cases hle : b.aggsCount ≤ b.aggsChain.length
      · simp [h0, hle] at h
      · simp [h0, hle] at h
        exact h.2.symm

/-- Helper for C10: `sort` leaves the builder untouched when it raises. -/
theorem sort_atomic (b b' : ElasticQueryBuilder) (e : QBError) (f o : String)
    (h : b.sort f o = .error (e, b')) : b' = b := by
  unfold ElasticQueryBuilder.sort at h
  by_cases ho : o = "desc" ∨ o = "asc"
  · rw [if_pos ho] at h
    exact Except.noConfusion h
  · rw [if_neg ho] at h
    simp at h
    exact h.2.symm

/-- Helper for C10: `minimum_should_match` leaves the builder untouched when
it raises. -/
theorem minimum_should_match_atomic (b b' : ElasticQueryBuilder) (e : QBError) (m : Int)
    (h : b.minimum_should_match m = .error (e, b')) : b' = b := by
  unfold ElasticQueryBuilder.minimum_should_match at h
  rcases hq : b.queryBody with _ | (_ | p | ⟨g, ms⟩)
  all_goals rw [hq] at h
  all_goals simp at h
  all_goals exact h.2.symm

/-- C10: error atomicity of the builder.  Whenever any fallible builder
operation (leaf predicate, clause selector, `add_bool`, `aggs`, `sort`,
`minimum_should_match`) raises, the builder it was invoked on is exactly the
builder it was before the call: query document, aggregation state, sort list
and current clause-group selector included. -/
theorem builder_errors_atomic (op : BuilderOp) (b b' : ElasticQueryBuilder) (e : QBError)
    (h : applyOp op b = .error (e, b')) : b' = b := by
  cases op with
  | leafO lc =>
    cases lc with
    | matchC f v => exact match'_atomic b b' e f v h
    | matchPhraseC f v => exact match_phrase_atomic b b' e f v h
    | termC f v => exact term_atomic b b' e f v h
    | termsC f vs => exact terms_atomic b b' e f vs h
    | queryStringC f v => exact query_string_atomic b b' e f v h
    | rangeC f g l => exact range_atomic b b' e f g l h
    | existsC f => exact exists'_atomic b b' e f h
  | selectorO ct => exact selector_atomic ct b b' e h
  | addBoolO sub => exact add_bool_atomic b sub b' e h
  | aggsO f a kw => exact aggs_atomic b b' e f a kw h
  | sortO f o => exact sort_atomic b b' e f o h
  | minShouldO m => exact minimum_should_match_atomic b b' e m h

/-- C10 witness: an invalid `sort` call on a fresh builder fails and the
builder state carried by the error is exactly the fresh builder. -/
theorem builder_errors_atomic_witness :
    applyOp (BuilderOp.sortO "f" "up") (ElasticQueryBuilder.new "")
        = .error (.invalidParameter "order", ElasticQueryBuilder.new "")
    ∧ ElasticQueryBuilder.new "" = ElasticQueryBuilder.new "" :=
  ⟨rfl, builder_errors_atomic (BuilderOp.sortO "f" "up") (ElasticQueryBuilder.new "")
    (ElasticQueryBuilder.new "") (.invalidParameter "order") rfl⟩
